import Mathlib

/-!
# Registry lifecycle of the PocketBase server (`main.go`)

A shallow embedding of `main.go`: configuration and identity resolution, the
bootstrap and terminate hooks, the `eureka-health` cron task and the two e-mail
handlers.  Every call that leaves the process (registry, HTTP client, logger,
hook chain) is recorded as an `Event`; the answers of the outside world are
inputs of the embedded functions.
-/

namespace Pocketbase

/-! ## Data model -/

/-- The `fargo.DataCenterInfo` value as far as `main.go` sets it. -/
structure DataCenterInfo where
  Name : String
  deriving DecidableEq, Repr

/-- The fields of `fargo.Instance` that `main.go` reads or writes.  Strings have
the zero value `""`, `Port` the zero value `0`. -/
structure Instance where
  HostName : String
  Port : Int
  App : String
  IPAddr : String
  VipAddress : String
  Status : String
  DataCenterInfo : DataCenterInfo
  deriving DecidableEq, Repr

/-- The Go zero value `fargo.Instance{}`. -/
def Instance.zero : Instance :=
  { HostName := "", Port := 0, App := "", IPAddr := "", VipAddress := "",
    Status := "", DataCenterInfo := { Name := "" } }

/-- The status constant `fargo.UP`. -/
def fargoUP : String := "UP"

/-- The data-center constant `fargo.MyOwn`. -/
def fargoMyOwn : String := "MyOwn"

/-- The `fargo.Application` value: a name and its instances, in order. -/
structure Application where
  Name : String
  Instances : List Instance
  deriving DecidableEq, Repr

/-- The JSON object the e-mail handlers forward to the mail microservice. -/
structure ForwardBody where
  recipients : List String
  subject : String
  body : String
  deriving DecidableEq, Repr

/-- Calls that leave the process, in the order they are made. -/
inductive Event where
  | newConn (url : String)
  | registerInstance (inst : Instance)
  | deregisterInstance (inst : Instance)
  | heartBeatInstance (inst : Instance)
  | getApps
  | httpGet (timeout : Int) (url : String)
  | closeBody
  | httpPost (timeout : Int) (url : String) (contentType : String) (body : ForwardBody)
  | log (line : String)
  | next
  | bindHook (hook : String)
  | cronAdd (jobId : String) (cronExpr : String)
  | appStart
  | logFatal (err : String)
  deriving DecidableEq, Repr

/-! ## `time.Duration` and the shared HTTP client -/

/-- The constant `time.Second`, in nanoseconds. -/
def timeSecond : Int := 1000000000

/-- The field `httpClient.Timeout`, set to `10 * time.Second`. -/
def httpClientTimeout : Int := 10 * timeSecond

/-- Go's `fmtFrac`: the fractional digits of `v / 10^prec`, trailing zeros and a
bare decimal point left out, and the remaining integer part. -/
def fmtFrac : Nat → Nat → Bool → List Char → List Char × Nat
  | v, 0, pr, acc => (if pr then '.' :: acc else acc, v)
  | v, prec + 1, pr, acc =>
    let digit := v % 10
    let pr2 := pr || decide (digit ≠ 0)
    fmtFrac (v / 10) prec pr2 (if pr2 then Nat.digitChar digit :: acc else acc)

/-- Go's `Duration.String` for a duration given in nanoseconds. -/
def durationString (d : Int) : String :=
  let u := d.natAbs
  let sign := if d < 0 then "-" else ""
  if u = 0 then "0s"
  else if u < 1000000000 then
    let unit := if u < 1000 then "ns" else if u < 1000000 then "µs" else "ms"
    let prec := if u < 1000 then 0 else if u < 1000000 then 3 else 6
    let r := fmtFrac u prec false []
    sign ++ toString r.2 ++ String.mk r.1 ++ unit
  else
    let r := fmtFrac u 9 false []
    let secs := toString (r.2 % 60) ++ String.mk r.1 ++ "s"
    let mins := r.2 / 60
    if mins = 0 then sign ++ secs
    else
      let hours := mins / 60
      if hours = 0 then sign ++ toString (mins % 60) ++ "m" ++ secs
      else sign ++ toString hours ++ "h" ++ toString (mins % 60) ++ "m" ++ secs

/-! ## Configuration and identity -/

/-- The values `main` computes once and that the hooks and the cron task capture. -/
structure Config where
  eurekaURL : String
  appName : String
  port : Int
  ip : String
  hostname : String
  deriving DecidableEq, Repr

/-! ## The `eureka-health` cron task -/

/-- What the outside world answers during one tick of `eureka-health`. -/
structure TickWorld where
  /-- the error of `client.HeartBeatInstance(inst)`, `none` for `nil` -/
  heartBeat : Option String
  /-- the result of `client.GetApps()`: an error, or the applications of the
  returned collection (fargo returns a `map[string]*Application` keyed by the
  application name), listed here in the order the registry sent them -/
  getApps : Except String (List Application)
  /-- the order in which `for _, a := range apps` visits the applications of the
  returned collection; Go leaves the order of a range over a map unspecified -/
  rangeOrder : List Application → List Application
  /-- the result of the k-th `httpClient.Get(url)` of the tick: an error or the
  status code of the response -/
  httpGet : Nat → String → Except String Int

/-- The descriptor `&fargo.Instance{HostName: hostname, App: appName}`. -/
def identityInstance (cfg : Config) : Instance :=
  { Instance.zero with HostName := cfg.hostname, App := cfg.appName }

/-- The probe address `fmt.Sprintf("http://%s:%d", ins.IPAddr, ins.Port)`. -/
def probeURL (ins : Instance) : String :=
  "http://" ++ ins.IPAddr ++ ":" ++ toString ins.Port

/-- The log line of an answered probe. -/
def reachableLine (a : Application) (ins : Instance) (code : Int) : String :=
  "✅ " ++ a.Name ++ "/" ++ ins.HostName ++ " reachable (status " ++ toString code ++ ")"

/-- The log line of a failed probe. -/
def inaccesibleLine (a : Application) (ins : Instance) (err : String) : String :=
  "❌ " ++ a.Name ++ "/" ++ ins.HostName ++ " inaccesible (timeout "
    ++ durationString httpClientTimeout ++ "): " ++ err

/-- The body of the inner loop: probe one instance and log the outcome.  The
state is the trace so far and the number of probes already made. -/
def probeInstance (w : TickWorld) (a : Application) (st : List Event × Nat)
    (ins : Instance) : List Event × Nat :=
  let url := probeURL ins
  match w.httpGet st.2 url with
  | .error err =>
    (st.1 ++ [Event.httpGet httpClientTimeout url, Event.log (inaccesibleLine a ins err)],
      st.2 + 1)
  | .ok code =>
    (st.1 ++ [Event.httpGet httpClientTimeout url, Event.closeBody,
        Event.log (reachableLine a ins code)],
      st.2 + 1)

/-- The inner loop `for _, ins := range a.Instances`. -/
def sweepApp (w : TickWorld) (st : List Event × Nat) (a : Application) : List Event × Nat :=
  a.Instances.foldl (probeInstance w a) st

/-- The outer loop `for _, a := range apps`, over the applications in the order
the range statement visits them. -/
def sweep (w : TickWorld) (st : List Event × Nat) (visited : List Application) :
    List Event × Nat :=
  visited.foldl (sweepApp w) st

/-- One run of the `eureka-health` cron function. -/
def tick (cfg : Config) (w : TickWorld) : List Event :=
  let inst := identityInstance cfg
  let start := [Event.newConn cfg.eurekaURL, Event.heartBeatInstance inst, Event.getApps]
  match w.getApps with
  | .error err => start ++ [Event.log ("⚠️ Error leyendo apps de Eureka: " ++ err)]
  | .ok apps => (sweep w (start, 0) (w.rangeOrder apps)).1

/-! ## Reading a trace -/

/-- The addresses of the reachability probes of a trace, in order. -/
def probesOf : List Event → List String
  | [] => []
  | Event.httpGet _ url :: es => url :: probesOf es
  | _ :: es => probesOf es

/-- The log lines of a trace, in order. -/
def logsOf : List Event → List String
  | [] => []
  | Event.log line :: es => line :: logsOf es
  | _ :: es => logsOf es

/-- The (application, instance) pairs of a list of applications, in order. -/
def targets (apps : List Application) : List (Application × Instance) :=
  apps.flatMap (fun a => a.Instances.map (fun ins => (a, ins)))

/-- The total number of instances of a list of applications. -/
def instanceCount (apps : List Application) : Nat :=
  (apps.map (fun a => a.Instances.length)).sum

/-- The log line of one probe, from its outcome. -/
def probeLine (a : Application) (ins : Instance) : Except String Int → String
  | .error err => inaccesibleLine a ins err
  | .ok code => reachableLine a ins code

/-- The events of the k-th probe of a tick, aimed at instance `ins` of `a`. -/
def probeEvents (w : TickWorld) (k : Nat) (a : Application) (ins : Instance) : List Event :=
  match w.httpGet k (probeURL ins) with
  | .error err =>
    [Event.httpGet httpClientTimeout (probeURL ins), Event.log (inaccesibleLine a ins err)]
  | .ok code =>
    [Event.httpGet httpClientTimeout (probeURL ins), Event.closeBody,
      Event.log (reachableLine a ins code)]

/-- The events of probing the given targets one after the other, the first
probe being the k-th of the tick. -/
def sweepEvents (w : TickWorld) : Nat → List (Application × Instance) → List Event
  | _, [] => []
  | k, t :: ts => probeEvents w k t.1 t.2 ++ sweepEvents w (k + 1) ts

/-! ## Environment and configuration (`main`, lines 41 to 54) -/

/-- The process environment: the value of a variable, `none` when it is unset. -/
abbrev Environ := String → Option String

/-- Go's `os.Getenv`: the value of the variable, `""` when it is unset. -/
def getenv (env : Environ) (key : String) : String :=
  (env key).getD ""

/-- The white space of Go's `fmt` scanner. -/
def isSpace (c : Char) : Bool :=
  let r := c.toNat
  r = 0x09 || r = 0x0a || r = 0x0b || r = 0x0c || r = 0x0d || r = 0x20 || r = 0x85
    || r = 0xa0 || r = 0x1680 || (0x2000 ≤ r && r ≤ 0x200a) || r = 0x2028 || r = 0x2029
    || r = 0x202f || r = 0x205f || r = 0x3000

/-- Go's `SkipSpace` as `Sscanf` runs it: leading white space is dropped, a
newline is an error (`none`). -/
def skipSpace : List Char → Option (List Char)
  | [] => some []
  | c :: cs =>
    if c = '\n' then none
    else if isSpace c then skipSpace cs
    else some (c :: cs)

/-- The constant `decimalDigits` of Go's scanner, as a list of characters. -/
def decimalDigits : List Char := "0123456789".data

/-- The value of a run of decimal digits. -/
def decimalValue (digits : List Char) : Nat :=
  digits.foldl (fun acc d => acc * 10 + (d.toNat - 48)) 0

/-- Go's `scanInt` for the verb `%d` and a 64-bit `int`: white space, an
optional sign, at least one decimal digit; `none` when the scan fails. -/
def scanInt (input : List Char) : Option Int :=
  match skipSpace input with
  | none => none
  | some [] => none
  | some (c :: cs) =>
    let rest := if c = '+' ∨ c = '-' then cs else c :: cs
    let digits := rest.takeWhile Char.isDigit
    if digits = [] then none
    else
      let v : Int := if c = '-' then -(decimalValue digits : Int) else (decimalValue digits : Int)
      if -9223372036854775808 ≤ v ∧ v ≤ 9223372036854775807 then some v else none

/-- The statements `var port int; fmt.Sscanf(portStr, "%d", &port)`: the scanned
number, and the zero value when the scan fails (the error is dropped). -/
def sscanfPort (portStr : String) : Int :=
  (scanInt portStr.data).getD 0

/-- The effective registry address. -/
def eurekaURL (env : Environ) : String :=
  if getenv env "EUREKA_URL" = "" then "http://172.25.136.15:8761/eureka"
  else getenv env "EUREKA_URL"

/-- The effective application name. -/
def appName (env : Environ) : String :=
  if getenv env "EUREKA_APP" = "" then "POCKETBASE-SERVER"
  else getenv env "EUREKA_APP"

/-- The effective port text. -/
def portStr (env : Environ) : String :=
  if getenv env "PORT" = "" then "8090"
  else getenv env "PORT"

/-! ## Identity resolution (`getOutboundIP` and `main`, lines 57 to 62) -/

/-- An address as Go's `net.IP`: a sequence of bytes. -/
abbrev IP := List (Fin 256)

/-- Two lower-case hexadecimal digits per byte (Go's `hexString`). -/
def hexString (ip : IP) : List Char :=
  ip.flatMap (fun b => [Nat.digitChar (b.val / 16), Nat.digitChar (b.val % 16)])

/-- Go's `IP.To4`: the four bytes of an IPv4 or IPv4-mapped address. -/
def to4 (ip : IP) : Option IP :=
  if ip.length = 4 then some ip
  else if ip.length = 16 ∧ (ip.take 10).all (fun b => b = 0) ∧ ip.getD 10 0 = 255
      ∧ ip.getD 11 0 = 255 then some (ip.drop 12)
  else none

/-- Dotted decimal (Go's `string4`). -/
def string4 (p4 : IP) : List Char :=
  Nat.toDigits 10 (p4.getD 0 0).val ++ '.' :: Nat.toDigits 10 (p4.getD 1 0).val
    ++ '.' :: Nat.toDigits 10 (p4.getD 2 0).val ++ '.' :: Nat.toDigits 10 (p4.getD 3 0).val

/-- The eight 16-bit fields of a 16-byte address. -/
def v6u16 (ip : IP) (i : Nat) : Nat :=
  (ip.getD (2 * i) 0).val * 256 + (ip.getD (2 * i + 1) 0).val

/-- Go's `appendHex`: a 16-bit field in hexadecimal without leading zeros. -/
def appendHex (x : Nat) : List Char :=
  (if x ≥ 0x1000 then [Nat.digitChar (x / 0x1000)] else [])
    ++ (if x ≥ 0x100 then [Nat.digitChar (x / 0x100 % 16)] else [])
    ++ (if x ≥ 0x10 then [Nat.digitChar (x / 0x10 % 16)] else [])
    ++ [Nat.digitChar (x % 16)]

/-- The first longest run of at least two zero fields, as `(zeroStart, zeroEnd)`;
`(255, 255)` when there is none. -/
def zeroRun (ip : IP) : Nat × Nat :=
  (List.range 8).foldl
    (fun z i =>
      let j := i + (((List.range 8).drop i).takeWhile (fun k => v6u16 ip k = 0)).length
      if j - i ≥ 2 ∧ j - i > z.2 - z.1 then (i, j) else z)
    (255, 255)

/-- The output loop of Go's `appendTo6`, from field `i` on. -/
def fields6 (ip : IP) (zeroStart zeroEnd : Nat) : Nat → Nat → List Char
  | 0, _ => []
  | fuel + 1, i =>
    if i ≥ 8 then []
    else if i = zeroStart then
      ':' :: ':' ::
        (if zeroEnd ≥ 8 then []
         else appendHex (v6u16 ip zeroEnd) ++ fields6 ip zeroStart zeroEnd fuel (zeroEnd + 1))
    else
      (if i > 0 then [':'] else []) ++ appendHex (v6u16 ip i)
        ++ fields6 ip zeroStart zeroEnd fuel (i + 1)

/-- The text of a 16-byte address that is not IPv4-mapped (Go's `string6`). -/
def string6 (ip : IP) : List Char :=
  fields6 ip (zeroRun ip).1 (zeroRun ip).2 8 0

/-- Go's `IP.String`. -/
def ipString (ip : IP) : String :=
  if ip.length = 0 then "<nil>"
  else if ip.length ≠ 4 ∧ ip.length ≠ 16 then String.mk ('?' :: hexString ip)
  else
    match to4 ip with
    | some p4 => String.mk (string4 p4)
    | none => String.mk (string6 ip)

/-- The function `getOutboundIP`.  The input is the outcome of
`net.Dial("udp", "8.8.8.8:80")`: an error, or the IP of the local address of the
connection.  The result is the Go pair (address, error). -/
def getOutboundIP (dial : Except String IP) : String × Option String :=
  match dial with
  | .error err => ("", some err)
  | .ok localIP => (ipString localIP, none)

/-- Lines 57 to 61 of `main`: the address to advertise and what is logged. -/
def resolveIP (dial : Except String IP) : String × List Event :=
  match getOutboundIP dial with
  | (_, some err) =>
    ("127.0.0.1", [Event.log ("⚠️ No pude auto-detectar IP: " ++ err ++ ", usaré loopback")])
  | (ip, none) => (ip, [])

/-- The configuration `main` computes before it binds the hooks.  `host` is the
Go pair returned by `os.Hostname()`, whose error is dropped. -/
def mainConfig (env : Environ) (dial : Except String IP) (host : String × Option String) :
    Config :=
  { eurekaURL := eurekaURL env
    appName := appName env
    port := sscanfPort (portStr env)
    ip := (resolveIP dial).1
    hostname := host.1 }

/-- The function `main`: the configuration the hooks capture and the calls
`main` makes itself.  `start` is the error of `app.Start()`, `none` for `nil`. -/
def main (env : Environ) (dial : Except String IP) (host : String × Option String)
    (start : Option String) : Config × List Event :=
  (mainConfig env dial host,
    (resolveIP dial).2
      ++ [Event.bindHook "OnBootstrap", Event.bindHook "OnServe", Event.bindHook "OnTerminate",
          Event.cronAdd "eureka-health" "*/5 * * * *", Event.cronAdd "hello" "*/2 * * * *",
          Event.appStart]
      ++ (match start with
          | some err => [Event.logFatal err]
          | none => []))

/-! ## The bootstrap and terminate hooks -/

/-- The descriptor built in the bootstrap hook (lines 69 to 77). -/
def registrationInstance (cfg : Config) : Instance :=
  { HostName := cfg.hostname
    Port := cfg.port
    App := cfg.appName
    IPAddr := cfg.ip
    VipAddress := cfg.appName
    Status := fargoUP
    DataCenterInfo := { Name := fargoMyOwn } }

/-- The `OnBootstrap` hook.  `register` is the error of `RegisterInstance`,
`next` the error of `e.Next()` (`none` for `nil`); the result is the trace and
the error the hook returns. -/
def onBootstrap (cfg : Config) (register : Option String) (next : Option String) :
    List Event × Option String :=
  let line := match register with
    | some err => "⚠️ Eureka registro fallido (omitido): " ++ err
    | none => "✅ Registrado en Eureka"
  ([Event.newConn cfg.eurekaURL, Event.registerInstance (registrationInstance cfg),
    Event.log line, Event.next], next)

/-- The `OnTerminate` hook.  `deregister` is the error of `DeregisterInstance`,
`next` the error of `te.Next()`. -/
def onTerminate (cfg : Config) (deregister : Option String) (next : Option String) :
    List Event × Option String :=
  let line := match deregister with
    | some err => "⚠️ Error desregistrando en Eureka: " ++ err
    | none => "🗑️ Desregistrado de Eureka exitosamente"
  ([Event.log "⚠️ PocketBase terminando, desregistrando de Eureka...",
    Event.newConn cfg.eurekaURL, Event.deregisterInstance (identityInstance cfg),
    Event.log line, Event.next], next)

/-- The registry addresses a trace opens connections to, in order. -/
def connsOf : List Event → List String
  | [] => []
  | Event.newConn url :: es => url :: connsOf es
  | _ :: es => connsOf es

/-! ## The e-mail handlers (`/api/custom/email` and `/api/custom/emails`) -/

/-- The decoded request body. -/
structure EmailData where
  Recipients : List String
  Subject : String
  Body : String
  deriving DecidableEq, Repr

/-- The JSON payloads of the handlers. -/
inductive Payload where
  /-- the keys `success: false`, `message`, `invalid` -/
  | noValid (message : String) (invalid : List String)
  /-- the keys `success: true`, `invalidRecipients`, `microserviceReply` -/
  | sent (invalidRecipients : List String) (microserviceReply : String)
  deriving DecidableEq, Repr

/-- What a handler returns. -/
inductive Response where
  | badRequestError (message : String) (err : String)
  | internalServerError (message : String) (err : String)
  | json (status : Nat) (payload : Payload)
  /-- the type assertion `record.Get("email").(string)` failed -/
  | assertionPanic
  deriving DecidableEq, Repr

/-- The HTTP status of a response; a panic has none of its own. -/
def Response.status : Response → Option Nat
  | .badRequestError _ _ => some 400
  | .internalServerError _ _ => some 500
  | .json status _ => some status
  | .assertionPanic => none

/-- What the outside world answers during one request to an e-mail handler. -/
structure EmailWorld where
  /-- the result of `io.ReadAll(e.Request.Body)` -/
  readAll : Except String String
  /-- the JSON decoder applied to the body -/
  decode : String → Except String EmailData
  /-- the result of `FindAllRecords("usuarios")`; a record is given by its
  `email` field, `none` when that field does not hold a string -/
  findAllRecords : Except String (List (Option String))
  /-- the result of `httpClient.Post`: an error or the body of the reply -/
  post : Except String String

/-- The loop that fills the map `validEmails` (a missing key reads `false`);
`none` when a type assertion fails. -/
def buildValidEmails : List (Option String) → (String → Bool) → Option (String → Bool)
  | [], m => some m
  | none :: _, _ => none
  | some email :: rest, m => buildValidEmails rest (fun k => if k = email then true else m k)

/-- The loop that splits the recipients into `(validRecipients, invalidRecipients)`. -/
def splitRecipients (validEmails : String → Bool) (recipients : List String) :
    List String × List String :=
  recipients.foldl
    (fun acc email =>
      if validEmails email then (acc.1 ++ [email], acc.2) else (acc.1, acc.2 ++ [email]))
    ([], [])

/-- Go's `%v` of a `[]string`. -/
def formatStrings (l : List String) : String :=
  "[" ++ " ".intercalate l ++ "]"

/-- The body shared by the two e-mail handlers; `target` is the address of the
mail microservice.  Encoding the forwarded object cannot fail for strings. -/
def emailHandlerWith (target : String) (w : EmailWorld) : List Event × Response :=
  match w.readAll with
  | .error err => ([], .badRequestError "Error al leer el body de la solicitud" err)
  | .ok reqBody =>
    match w.decode reqBody with
    | .error err => ([], .badRequestError "Error al decodificar JSON" err)
    | .ok emailData =>
      match w.findAllRecords with
      | .error err => ([], .internalServerError "Error al obtener los correos válidos" err)
      | .ok userRecords =>
        match buildValidEmails userRecords (fun _ => false) with
        | none => ([], .assertionPanic)
        | some validEmails =>
          let validRecipients := (splitRecipients validEmails emailData.Recipients).1
          let invalidRecipients := (splitRecipients validEmails emailData.Recipients).2
          let logs :=
            if invalidRecipients.length > 0 then
              [Event.log ("❌ Emails no encontrados: " ++ formatStrings invalidRecipients)]
            else []
          if validRecipients.length = 0 then
            (logs, .json 400
              (.noValid "No se encontraron destinatarios válidos" invalidRecipients))
          else
            let forwardBody : ForwardBody :=
              { recipients := validRecipients
                subject := emailData.Subject
                body := emailData.Body }
            let call := Event.httpPost httpClientTimeout target "application/json" forwardBody
            match w.post with
            | .error err =>
              (logs ++ [call], .internalServerError "Error al llamar al microservicio" err)
            | .ok respBody =>
              (logs ++ [call, Event.closeBody], .json 200 (.sent invalidRecipients respBody))

/-- The handler of `POST /api/custom/email`. -/
def emailHandler (w : EmailWorld) : List Event × Response :=
  emailHandlerWith "http://localhost:8017/api/v1/auth/send-email-invitation" w

/-- The handler of `POST /api/custom/emails`. -/
def emailsHandler (w : EmailWorld) : List Event × Response :=
  emailHandlerWith "http://localhost:8017/api/v1/auth/send-email-html" w

/-- The recipient lists posted to the mail microservice in a trace, in order. -/
def postsOf : List Event → List (String × List String)
  | [] => []
  | Event.httpPost _ url _ body :: es => (url, body.recipients) :: postsOf es
  | _ :: es => postsOf es

/-- The reachability probes of a trace with the timeout of the client that made
them, in order. -/
def getsOf : List Event → List (Int × String)
  | [] => []
  | Event.httpGet timeout url :: es => (timeout, url) :: getsOf es
  | _ :: es => getsOf es

/-- The descriptors passed to the registry (register, heartbeat, deregister) in
a trace, in order. -/
def descriptorsOf : List Event → List Instance
  | [] => []
  | Event.registerInstance inst :: es => inst :: descriptorsOf es
  | Event.heartBeatInstance inst :: es => inst :: descriptorsOf es
  | Event.deregisterInstance inst :: es => inst :: descriptorsOf es
  | _ :: es => descriptorsOf es

/-! ## Concrete inputs -/

/-- A configuration as `main` computes it from an empty environment. -/
def sampleConfig : Config :=
  mainConfig (fun _ => none) (.ok [192, 168, 1, 7]) ("pb-host", none)

/-- Two applications with one instance each. -/
def twoApps : List Application :=
  [ { Name := "ORDERS"
      Instances := [{ Instance.zero with HostName := "A", IPAddr := "10.0.0.1", Port := 9001 }] },
    { Name := "BILLING"
      Instances := [{ Instance.zero with HostName := "C", IPAddr := "10.0.0.3", Port := 9003 }] } ]

/-- A tick in which the registry lists `twoApps`, the range over the returned
map visits BILLING before ORDERS, and every probe is answered with 200. -/
def swappedWorld : TickWorld :=
  { heartBeat := none
    getApps := .ok twoApps
    rangeOrder := List.reverse
    httpGet := fun _ _ => .ok 200 }

/-- A tick in which fetching the application list fails. -/
def registryDownWorld : TickWorld :=
  { heartBeat := some "connection refused"
    getApps := .error "connection refused"
    rangeOrder := id
    httpGet := fun _ _ => .ok 200 }

/-- One instance at 10.0.0.9, port 8080. -/
def singleInstance : Instance :=
  { Instance.zero with HostName := "D", IPAddr := "10.0.0.9", Port := 8080 }

/-- A tick in which the registry lists one application with `singleInstance`. -/
def singleWorld : TickWorld :=
  { heartBeat := none
    getApps := .ok [{ Name := "MAIL", Instances := [singleInstance] }]
    rangeOrder := id
    httpGet := fun _ _ => .ok 204 }

/-- An environment that sets the three variables `main` reads. -/
def customEnviron : Environ := fun key =>
  if key = "EUREKA_URL" then some "http://eureka.local:8761/eureka"
  else if key = "EUREKA_APP" then some "PB-TEST"
  else if key = "PORT" then some "9000"
  else none

/-- A request with three recipients, the second of them unknown. -/
def sampleEmailWorld : EmailWorld :=
  { readAll := .ok "body"
    decode := fun _ =>
      .ok { Recipients := ["ana@x.org", "zoe@x.org", "ana@x.org"], Subject := "s", Body := "b" }
    findAllRecords := .ok (["ana@x.org", "leo@x.org"].map some)
    post := .ok "sent" }

/-! ## Lemmas on the sweep -/

theorem probeInstance_eq (w : TickWorld) (a : Application) (st : List Event × Nat)
    (ins : Instance) :
    probeInstance w a st ins = (st.1 ++ probeEvents w st.2 a ins, st.2 + 1) := by
  cases h : w.httpGet st.2 (probeURL ins) <;> simp [probeInstance, probeEvents, h]

theorem sweepEvents_append (w : TickWorld) (xs ys : List (Application × Instance)) (k : Nat) :
    sweepEvents w k (xs ++ ys) = sweepEvents w k xs ++ sweepEvents w (k + xs.length) ys := by
  induction xs generalizing k with
  | nil => simp [sweepEvents]
  | cons x xs ih =>
    have hk : k + 1 + xs.length = k + (xs.length + 1) := by omega
    rw [List.cons_append]
    simp only [sweepEvents, ih, List.append_assoc, List.length_cons, hk]

theorem foldl_probeInstance (w : TickWorld) (a : Application) (l : List Instance)
    (tr : List Event) (k : Nat) :
    l.foldl (probeInstance w a) (tr, k)
      = (tr ++ sweepEvents w k (l.map (fun ins => (a, ins))), k + l.length) := by
  induction l generalizing tr k with
  | nil => simp [sweepEvents]
  | cons ins l ih =>
    have hk : k + 1 + l.length = k + (l.length + 1) := by omega
    simp only [List.foldl_cons, probeInstance_eq, ih, List.map_cons, sweepEvents,
      List.append_assoc, List.length_cons, hk]

theorem sweep_eq (w : TickWorld) (visited : List Application) (tr : List Event) (k : Nat) :
    sweep w (tr, k) visited
      = (tr ++ sweepEvents w k (targets visited), k + (targets visited).length) := by
  induction visited generalizing tr k with
  | nil => simp [sweep, targets, sweepEvents]
  | cons a l ih =>
    have h := ih
    unfold sweep at h ⊢
    simp only [List.foldl_cons, sweepApp, foldl_probeInstance, h, targets, List.flatMap_cons,
      sweepEvents_append, List.append_assoc, List.length_append, List.length_map]
    congr 1
    omega

theorem tick_ok (cfg : Config) (w : TickWorld) (apps : List Application)
    (h : w.getApps = .ok apps) :
    tick cfg w
      = [Event.newConn cfg.eurekaURL, Event.heartBeatInstance (identityInstance cfg),
          Event.getApps] ++ sweepEvents w 0 (targets (w.rangeOrder apps)) := by
  unfold tick
  simp only [h, sweep_eq]

theorem tick_error (cfg : Config) (w : TickWorld) (err : String)
    (h : w.getApps = .error err) :
    tick cfg w
      = [Event.newConn cfg.eurekaURL, Event.heartBeatInstance (identityInstance cfg),
          Event.getApps, Event.log ("⚠️ Error leyendo apps de Eureka: " ++ err)] := by
  unfold tick
  simp only [h]
  rfl

theorem probesOf_append (xs ys : List Event) :
    probesOf (xs ++ ys) = probesOf xs ++ probesOf ys := by
  induction xs with
  | nil => rfl
  | cons e xs ih => cases e <;> simp [probesOf, ih]

theorem logsOf_append (xs ys : List Event) :
    logsOf (xs ++ ys) = logsOf xs ++ logsOf ys := by
  induction xs with
  | nil => rfl
  | cons e xs ih => cases e <;> simp [logsOf, ih]

theorem probesOf_probeEvents (w : TickWorld) (k : Nat) (a : Application) (ins : Instance) :
    probesOf (probeEvents w k a ins) = [probeURL ins] := by
  cases h : w.httpGet k (probeURL ins) <;> simp [probeEvents, h, probesOf]

theorem logsOf_probeEvents (w : TickWorld) (k : Nat) (a : Application) (ins : Instance) :
    logsOf (probeEvents w k a ins) = [probeLine a ins (w.httpGet k (probeURL ins))] := by
  cases h : w.httpGet k (probeURL ins) <;> simp [probeEvents, h, logsOf, probeLine]

theorem probesOf_sweepEvents (w : TickWorld) (ts : List (Application × Instance)) (k : Nat) :
    probesOf (sweepEvents w k ts) = ts.map (fun t => probeURL t.2) := by
  induction ts generalizing k with
  | nil => rfl
  | cons t ts ih => simp [sweepEvents, probesOf_append, probesOf_probeEvents, ih]

theorem logsOf_sweepEvents_length (w : TickWorld) (ts : List (Application × Instance))
    (k : Nat) : (logsOf (sweepEvents w k ts)).length = ts.length := by
  induction ts generalizing k with
  | nil => rfl
  | cons t ts ih => simp [sweepEvents, logsOf_append, logsOf_probeEvents, ih]

theorem logsOf_sweepEvents_get (w : TickWorld) (ts : List (Application × Instance))
    (k i : Nat) (h : i < ts.length) :
    (logsOf (sweepEvents w k ts))[i]?
      = some (probeLine ts[i].1 ts[i].2 (w.httpGet (k + i) (probeURL ts[i].2))) := by
  induction ts generalizing k i with
  | nil => simp at h
  | cons t ts ih =>
    simp only [sweepEvents, logsOf_append, logsOf_probeEvents, List.singleton_append]
    cases i with
    | zero => simp
    | succ j =>
      have hj : j < ts.length := by simpa using h
      simp only [List.getElem?_cons_succ, List.getElem_cons_succ, ih (k + 1) j hj]
      congr 3
      omega

theorem targets_length (apps : List Application) :
    (targets apps).length = instanceCount apps := by
  induction apps with
  | nil => rfl
  | cons a l ih =>
    have h := ih
    unfold targets instanceCount at h ⊢
    simp [List.flatMap_cons, h]

theorem targets_perm {l₁ l₂ : List Application} (h : l₁.Perm l₂) :
    (targets l₁).Perm (targets l₂) :=
  List.Perm.flatMap_right _ h

theorem getsOf_append (xs ys : List Event) :
    getsOf (xs ++ ys) = getsOf xs ++ getsOf ys := by
  induction xs with
  | nil => rfl
  | cons e xs ih => cases e <;> simp [getsOf, ih]

theorem getsOf_sweepEvents (w : TickWorld) (ts : List (Application × Instance)) (k : Nat) :
    getsOf (sweepEvents w k ts) = ts.map (fun t => (httpClientTimeout, probeURL t.2)) := by
  induction ts generalizing k with
  | nil => rfl
  | cons t ts ih =>
    have h1 : getsOf (probeEvents w k t.1 t.2) = [(httpClientTimeout, probeURL t.2)] := by
      cases h : w.httpGet k (probeURL t.2) <;> simp [probeEvents, h, getsOf]
    simp [sweepEvents, getsOf_append, h1, ih]

theorem descriptorsOf_append (xs ys : List Event) :
    descriptorsOf (xs ++ ys) = descriptorsOf xs ++ descriptorsOf ys := by
  induction xs with
  | nil => rfl
  | cons e xs ih => cases e <;> simp [descriptorsOf, ih]

theorem descriptorsOf_sweepEvents (w : TickWorld) (ts : List (Application × Instance))
    (k : Nat) : descriptorsOf (sweepEvents w k ts) = [] := by
  induction ts generalizing k with
  | nil => rfl
  | cons t ts ih =>
    have h1 : descriptorsOf (probeEvents w k t.1 t.2) = [] := by
      cases h : w.httpGet k (probeURL t.2) <;> simp [probeEvents, h, descriptorsOf]
    simp [sweepEvents, descriptorsOf_append, h1, ih]

theorem connsOf_append (xs ys : List Event) :
    connsOf (xs ++ ys) = connsOf xs ++ connsOf ys := by
  induction xs with
  | nil => rfl
  | cons e xs ih => cases e <;> simp [connsOf, ih]

theorem connsOf_sweepEvents (w : TickWorld) (ts : List (Application × Instance))
    (k : Nat) : connsOf (sweepEvents w k ts) = [] := by
  induction ts generalizing k with
  | nil => rfl
  | cons t ts ih =>
    have h1 : connsOf (probeEvents w k t.1 t.2) = [] := by
      cases h : w.httpGet k (probeURL t.2) <;> simp [probeEvents, h, connsOf]
    simp [sweepEvents, connsOf_append, h1, ih]

/-- The shape of every tick: connection, heartbeat, fetch, then either the one
line of the fetch error or the sweep. -/
theorem tick_cases (cfg : Config) (w : TickWorld) :
    ∃ rest, tick cfg w
      = Event.newConn cfg.eurekaURL :: Event.heartBeatInstance (identityInstance cfg)
          :: Event.getApps :: rest
        ∧ connsOf rest = [] ∧ descriptorsOf rest = [] := by
  cases h : w.getApps with
  | error err =>
    exact ⟨[Event.log ("⚠️ Error leyendo apps de Eureka: " ++ err)],
      tick_error cfg w err h, rfl, rfl⟩
  | ok apps =>
    exact ⟨sweepEvents w 0 (targets (w.rangeOrder apps)), tick_ok cfg w apps h,
      connsOf_sweepEvents _ _ _, descriptorsOf_sweepEvents _ _ _⟩

/-! ## The claims on the `eureka-health` task -/

/-- C1, as stated, fails: `GetApps` of fargo returns a Go map keyed by the
application name, and the order in which `range` visits a map is not the order
of the registry.  When the range visits BILLING before ORDERS, the probes are
not issued in the order of the registry. -/
theorem C1_registry_order_counterexample :
    swappedWorld.getApps = .ok twoApps
      ∧ (swappedWorld.rangeOrder twoApps).Perm twoApps
      ∧ probesOf (tick sampleConfig swappedWorld)
          ≠ (targets twoApps).map (fun t => probeURL t.2) := by
  refine ⟨rfl, List.reverse_perm _, ?_⟩
  decide

/-- C1, amended: when the registry returns the applications `apps` and the range
over them visits each application once (in whatever order), one tick issues
exactly one probe per instance, `instanceCount apps` in total, application by
application in the order of the visit and in the order of the instances within
each application; it logs exactly one line per instance, in the same order, a
`reachable` line with the status code when the probe was answered and an
`inaccesible` line when it returned an error, whatever the earlier probes did. -/
theorem C1_sweep_probes_every_instance (cfg : Config) (w : TickWorld)
    (apps : List Application) (hget : w.getApps = .ok apps)
    (hperm : (w.rangeOrder apps).Perm apps) :
    probesOf (tick cfg w) = (targets (w.rangeOrder apps)).map (fun t => probeURL t.2)
      ∧ (targets (w.rangeOrder apps)).Perm (targets apps)
      ∧ (probesOf (tick cfg w)).length = instanceCount apps
      ∧ (logsOf (tick cfg w)).length = instanceCount apps
      ∧ (∀ (i : Nat) (hi : i < (targets (w.rangeOrder apps)).length) (code : Int),
          w.httpGet i (probeURL ((targets (w.rangeOrder apps))[i]).2) = .ok code →
          (logsOf (tick cfg w))[i]?
            = some (reachableLine ((targets (w.rangeOrder apps))[i]).1
                ((targets (w.rangeOrder apps))[i]).2 code))
      ∧ (∀ (i : Nat) (hi : i < (targets (w.rangeOrder apps)).length) (err : String),
          w.httpGet i (probeURL ((targets (w.rangeOrder apps))[i]).2) = .error err →
          (logsOf (tick cfg w))[i]?
            = some (inaccesibleLine ((targets (w.rangeOrder apps))[i]).1
                ((targets (w.rangeOrder apps))[i]).2 err)) := by
  have hlen : (targets (w.rangeOrder apps)).length = instanceCount apps := by
    rw [← targets_length apps]
    exact (targets_perm hperm).length_eq
  have hprobes : probesOf (tick cfg w)
      = (targets (w.rangeOrder apps)).map (fun t => probeURL t.2) := by
    rw [tick_ok cfg w apps hget, probesOf_append, probesOf_sweepEvents]
    rfl
  have hlogs : logsOf (tick cfg w) = logsOf (sweepEvents w 0 (targets (w.rangeOrder apps))) := by
    rw [tick_ok cfg w apps hget, logsOf_append]
    rfl
  refine ⟨hprobes, targets_perm hperm, ?_, ?_, ?_, ?_⟩
  · rw [hprobes, List.length_map, hlen]
  · rw [hlogs, logsOf_sweepEvents_length, hlen]
  · intro i hi code hcode
    rw [hlogs, logsOf_sweepEvents_get w _ 0 i hi, Nat.zero_add, hcode]
    rfl
  · intro i hi err herr
    rw [hlogs, logsOf_sweepEvents_get w _ 0 i hi, Nat.zero_add, herr]
    rfl

/-- C1, amended, at the tick of `swappedWorld`: two instances, two probes. -/
theorem C1_sweep_probes_every_instance_witness :
    swappedWorld.getApps = .ok twoApps
      ∧ (swappedWorld.rangeOrder twoApps).Perm twoApps
      ∧ probesOf (tick sampleConfig swappedWorld)
          = (targets (swappedWorld.rangeOrder twoApps)).map (fun t => probeURL t.2)
      ∧ (probesOf (tick sampleConfig swappedWorld)).length = instanceCount twoApps :=
  ⟨rfl, List.reverse_perm _,
    (C1_sweep_probes_every_instance sampleConfig swappedWorld twoApps rfl
      (List.reverse_perm _)).1,
    (C1_sweep_probes_every_instance sampleConfig swappedWorld twoApps rfl
      (List.reverse_perm _)).2.2.1⟩

/-- C2: every tick opens the connection, sends the heartbeat and only then
fetches the application list; when the fetch fails with `err`, the tick consists
of these three calls and the one log line of the fetch error, so it issues no
probe and logs nothing else. -/
theorem C2_fetch_failure_skips_sweep (cfg : Config) (w : TickWorld) :
    (∃ rest, tick cfg w
        = Event.newConn cfg.eurekaURL :: Event.heartBeatInstance (identityInstance cfg)
            :: Event.getApps :: rest)
      ∧ (∀ err, w.getApps = .error err →
          tick cfg w
              = [Event.newConn cfg.eurekaURL, Event.heartBeatInstance (identityInstance cfg),
                  Event.getApps, Event.log ("⚠️ Error leyendo apps de Eureka: " ++ err)]
            ∧ probesOf (tick cfg w) = []
            ∧ logsOf (tick cfg w) = ["⚠️ Error leyendo apps de Eureka: " ++ err]) := by
  constructor
  · obtain ⟨rest, h, _⟩ := tick_cases cfg w
    exact ⟨rest, h⟩
  · intro err h
    rw [tick_error cfg w err h]
    exact ⟨rfl, rfl, rfl⟩

/-- C2 at a tick in which the registry is down. -/
theorem C2_fetch_failure_skips_sweep_witness :
    registryDownWorld.getApps = .error "connection refused"
      ∧ probesOf (tick sampleConfig registryDownWorld) = []
      ∧ logsOf (tick sampleConfig registryDownWorld)
          = ["⚠️ Error leyendo apps de Eureka: " ++ "connection refused"] :=
  ⟨rfl,
    ((C2_fetch_failure_skips_sweep sampleConfig registryDownWorld).2
      "connection refused" rfl).2.1,
    ((C2_fetch_failure_skips_sweep sampleConfig registryDownWorld).2
      "connection refused" rfl).2.2⟩

/-- C4: two ticks that differ only in the outcome of the heartbeat call have the
same trace (the same fetch, probes and log lines), and the application list is
fetched in both. -/
theorem C4_heartbeat_outcome_ignored (cfg : Config) (w : TickWorld)
    (hb₁ hb₂ : Option String) :
    tick cfg { w with heartBeat := hb₁ } = tick cfg { w with heartBeat := hb₂ }
      ∧ Event.getApps ∈ tick cfg { w with heartBeat := hb₁ }
      ∧ probesOf (tick cfg { w with heartBeat := hb₁ })
          = probesOf (tick cfg { w with heartBeat := hb₂ })
      ∧ logsOf (tick cfg { w with heartBeat := hb₁ })
          = logsOf (tick cfg { w with heartBeat := hb₂ }) := by
  have h : tick cfg { w with heartBeat := hb₁ } = tick cfg { w with heartBeat := hb₂ } := rfl
  refine ⟨h, ?_, by rw [h], by rw [h]⟩
  obtain ⟨rest, hrest, _⟩ := tick_cases cfg { w with heartBeat := hb₁ }
  rw [hrest]
  simp

/-- C8, as stated, fails: the address handed to `httpClient.Get` for the
instance at 10.0.0.9, port 8080, has no trailing slash. -/
theorem C8_trailing_slash_counterexample :
    singleWorld.getApps = .ok [{ Name := "MAIL", Instances := [singleInstance] }]
      ∧ probesOf (tick sampleConfig singleWorld) = ["http://10.0.0.9:8080"]
      ∧ probesOf (tick sampleConfig singleWorld)
          ≠ ["http://" ++ singleInstance.IPAddr ++ ":" ++ toString singleInstance.Port ++ "/"] := by
  refine ⟨rfl, ?_, ?_⟩ <;> decide

/-- C8, amended: the probes of a tick are GET requests made by the client whose
timeout is 10 seconds (10000000000 ns), one per visited instance, and the
address of the probe of an instance is exactly `http://`, its IP address, `:`
and its port in decimal, with nothing after the port. -/
theorem C8_probe_address (cfg : Config) (w : TickWorld) (apps : List Application)
    (hget : w.getApps = .ok apps) :
    getsOf (tick cfg w)
      = (targets (w.rangeOrder apps)).map
          (fun t => ((10000000000 : Int), "http://" ++ t.2.IPAddr ++ ":" ++ toString t.2.Port)) := by
  rw [tick_ok cfg w apps hget, getsOf_append, getsOf_sweepEvents]
  rfl

/-- C8, amended, at the tick of `singleWorld`. -/
theorem C8_probe_address_witness :
    singleWorld.getApps = .ok [{ Name := "MAIL", Instances := [singleInstance] }]
      ∧ getsOf (tick sampleConfig singleWorld)
          = (targets (singleWorld.rangeOrder [{ Name := "MAIL", Instances := [singleInstance] }])).map
              (fun t => ((10000000000 : Int),
                "http://" ++ t.2.IPAddr ++ ":" ++ toString t.2.Port)) :=
  ⟨rfl, C8_probe_address sampleConfig singleWorld _ rfl⟩

/-! ## The claims on the hooks, the configuration and the identity -/

/-- C3: whatever the register call returned, the bootstrap hook returns the
result of `e.Next()`, and whatever the deregister call returned, the terminate
hook returns the result of `te.Next()`; in both hooks the call of `Next` is the
last event, and a registry error only changes the text of one log line. -/
theorem C3_hooks_return_next (cfg : Config) (outcome next : Option String) :
    (onBootstrap cfg outcome next).2 = next
      ∧ (onTerminate cfg outcome next).2 = next
      ∧ (onBootstrap cfg outcome next).1.getLast? = some Event.next
      ∧ (onTerminate cfg outcome next).1.getLast? = some Event.next
      ∧ (onBootstrap cfg outcome next).1.length = (onBootstrap cfg none next).1.length
      ∧ (onTerminate cfg outcome next).1.length = (onTerminate cfg none next).1.length
      ∧ (∀ err, logsOf (onBootstrap cfg (some err) next).1
          = ["⚠️ Eureka registro fallido (omitido): " ++ err])
      ∧ (∀ err, logsOf (onTerminate cfg (some err) next).1
          = ["⚠️ PocketBase terminando, desregistrando de Eureka...",
             "⚠️ Error desregistrando en Eureka: " ++ err]) := by
  refine ⟨rfl, rfl, rfl, rfl, rfl, rfl, fun _ => rfl, fun _ => rfl⟩

theorem digitChar_mem (k : Nat) (hk : k < 10) :
    Nat.digitChar k ∈ decimalDigits ∧ (Nat.digitChar k).toNat - 48 = k := by
  interval_cases k <;> decide

theorem decimal_char_props :
    ∀ c ∈ decimalDigits,
      c.isDigit = true ∧ c ≠ '\n' ∧ isSpace c = false ∧ c ≠ '+' ∧ c ≠ '-' := by
  decide

theorem toDigitsCore_spec (fuel n : Nat) (ds : List Char) (h : n < fuel) :
    ∃ l, Nat.toDigitsCore 10 fuel n ds = l ++ ds ∧ l ≠ []
      ∧ (∀ c ∈ l, c ∈ decimalDigits)
      ∧ decimalValue l = n := by
  induction fuel generalizing n ds with
  | zero => omega
  | succ fuel ih =>
    have hd := digitChar_mem (n % 10) (Nat.mod_lt _ (by decide))
    rw [Nat.toDigitsCore]
    by_cases h0 : n / 10 = 0
    · refine ⟨[Nat.digitChar (n % 10)], by simp [h0], by simp, ?_, ?_⟩
      · intro c hc
        rw [List.mem_singleton] at hc
        rw [hc]
        exact hd.1
      · simp only [decimalValue, List.foldl_cons, List.foldl_nil, hd.2]
        omega
    · obtain ⟨l, hl, hne, hall, hval⟩ := ih (n / 10) (Nat.digitChar (n % 10) :: ds) (by omega)
      refine ⟨l ++ [Nat.digitChar (n % 10)], by simp [h0, hl], by simp, ?_, ?_⟩
      · intro c hc
        rw [List.mem_append, List.mem_singleton] at hc
        rcases hc with hc | hc
        · exact hall c hc
        · rw [hc]
          exact hd.1
      · unfold decimalValue at hval ⊢
        rw [List.foldl_append, hval]
        simp only [List.foldl_cons, List.foldl_nil, hd.2]
        omega

theorem scanInt_toString (n : Nat) (hn : n ≤ 9223372036854775807) :
    (toString n) ≠ "" ∧ scanInt (toString n).data = some (n : Int) := by
  obtain ⟨l, hl, hne, hall, hval⟩ := toDigitsCore_spec (n + 1) n [] (by omega)
  have hdata : (toString n).data = l := by
    show (Nat.toDigits 10 n) = l
    rw [Nat.toDigits, hl, List.append_nil]
  constructor
  · intro h
    apply hne
    rw [← hdata, h]
  · rw [hdata]
    cases l with
    | nil => exact absurd rfl hne
    | cons c cs =>
      have hc := decimal_char_props c (hall c (List.mem_cons_self _ _))
      have htake : (c :: cs).takeWhile Char.isDigit = c :: cs := by
        rw [List.takeWhile_eq_self_iff]
        intro x hx
        exact (decimal_char_props x (hall x hx)).1
      have hskip : skipSpace (c :: cs) = some (c :: cs) := by
        simp [skipSpace, hc.2.1, hc.2.2.1]
      unfold scanInt
      rw [hskip]
      simp only [hc.2.2.2.1, hc.2.2.2.2, or_self, if_false, htake, hval]
      simp
      omega

/-- C5: for every environment, the registry address of the configuration is the
value of `EUREKA_URL` when that is set and not empty, and
`http://172.25.136.15:8761/eureka` when it is unset or empty; likewise the
application name is the value of `EUREKA_APP`, and `POCKETBASE-SERVER` when
that is unset or empty; the port is 8090 when `PORT` is unset or empty, and
otherwise what the `%d` scan of its value gives: the number itself for the
decimal text of a number up to 2^63 - 1, and 0 when the scan fails (as for
`abc`).  The bootstrap hook, every tick and the terminate hook each open exactly
one registry connection, to that address, so that with `EUREKA_URL` unset the
registration goes to the default address. -/
theorem C5_configuration_defaults (env : Environ) (dial : Except String IP)
    (host : String × Option String) :
    (∀ v, env "EUREKA_URL" = some v → v ≠ "" → (mainConfig env dial host).eurekaURL = v)
      ∧ (env "EUREKA_URL" = none ∨ env "EUREKA_URL" = some "" →
          (mainConfig env dial host).eurekaURL = "http://172.25.136.15:8761/eureka")
      ∧ (∀ v, env "EUREKA_APP" = some v → v ≠ "" → (mainConfig env dial host).appName = v)
      ∧ (env "EUREKA_APP" = none ∨ env "EUREKA_APP" = some "" →
          (mainConfig env dial host).appName = "POCKETBASE-SERVER")
      ∧ (env "PORT" = none ∨ env "PORT" = some "" → (mainConfig env dial host).port = 8090)
      ∧ (∀ v, env "PORT" = some v → v ≠ "" →
          (mainConfig env dial host).port = (scanInt v.data).getD 0)
      ∧ (∀ n : Nat, n ≤ 9223372036854775807 → env "PORT" = some (toString n) →
          (mainConfig env dial host).port = (n : Int))
      ∧ (env "PORT" = some "abc" → (mainConfig env dial host).port = 0)
      ∧ (∀ register next, connsOf (onBootstrap (mainConfig env dial host) register next).1
          = [(mainConfig env dial host).eurekaURL])
      ∧ (∀ w, connsOf (tick (mainConfig env dial host) w)
          = [(mainConfig env dial host).eurekaURL])
      ∧ (∀ deregister next, connsOf (onTerminate (mainConfig env dial host) deregister next).1
          = [(mainConfig env dial host).eurekaURL])
      ∧ (env "EUREKA_URL" = none → ∀ register next,
          (onBootstrap (mainConfig env dial host) register next).1.take 2
            = [Event.newConn "http://172.25.136.15:8761/eureka",
               Event.registerInstance (registrationInstance (mainConfig env dial host))]) := by
  have hdefault : env "EUREKA_URL" = none ∨ env "EUREKA_URL" = some "" →
      (mainConfig env dial host).eurekaURL = "http://172.25.136.15:8761/eureka" := by
    intro h
    rcases h with h | h <;> simp [mainConfig, eurekaURL, getenv, h]
  have hset : ∀ v, env "PORT" = some v → v ≠ "" →
      (mainConfig env dial host).port = (scanInt v.data).getD 0 := by
    intro v hv hne
    have hp : portStr env = v := by simp [portStr, getenv, hv, hne]
    show sscanfPort (portStr env) = _
    rw [hp]
    rfl
  refine ⟨?_, hdefault, ?_, ?_, ?_, hset, ?_, ?_, fun _ _ => rfl, ?_, fun _ _ => rfl, ?_⟩
  · intro v hv hne
    simp [mainConfig, eurekaURL, getenv, hv, hne]
  · intro v hv hne
    simp [mainConfig, appName, getenv, hv, hne]
  · intro h
    rcases h with h | h <;> simp [mainConfig, appName, getenv, h]
  · intro h
    have hp : portStr env = "8090" := by
      rcases h with h | h <;> simp [portStr, getenv, h]
    show sscanfPort (portStr env) = 8090
    rw [hp]
    decide
  · intro n hn hv
    rw [hset _ hv (scanInt_toString n hn).1, (scanInt_toString n hn).2]
    rfl
  · intro hv
    rw [hset _ hv (by decide)]
    decide
  · intro w
    obtain ⟨rest, hrest, hconns, _⟩ := tick_cases (mainConfig env dial host) w
    rw [hrest]
    simp [connsOf, hconns]
  · intro h register next
    have hurl := hdefault (Or.inl h)
    show [Event.newConn (mainConfig env dial host).eurekaURL, _] = _
    rw [hurl]

/-- C5 at an empty environment, where the registration goes to the default
address under the default name and port, and at an environment that sets the
three variables. -/
theorem C5_configuration_defaults_witness :
    (mainConfig (fun _ => none) (.ok [192, 168, 1, 7]) ("pb-host", none)).eurekaURL
        = "http://172.25.136.15:8761/eureka"
      ∧ (mainConfig (fun _ => none) (.ok [192, 168, 1, 7]) ("pb-host", none)).appName
        = "POCKETBASE-SERVER"
      ∧ (mainConfig (fun _ => none) (.ok [192, 168, 1, 7]) ("pb-host", none)).port = 8090
      ∧ (mainConfig customEnviron (.ok [192, 168, 1, 7]) ("pb-host", none)).eurekaURL
        = "http://eureka.local:8761/eureka"
      ∧ (mainConfig customEnviron (.ok [192, 168, 1, 7]) ("pb-host", none)).appName = "PB-TEST"
      ∧ (mainConfig customEnviron (.ok [192, 168, 1, 7]) ("pb-host", none)).port
        = ((9000 : Nat) : Int) :=
  ⟨(C5_configuration_defaults (fun _ => none) (.ok [192, 168, 1, 7]) ("pb-host", none)).2.1
      (Or.inl rfl),
    (C5_configuration_defaults (fun _ => none) (.ok [192, 168, 1, 7])
      ("pb-host", none)).2.2.2.1 (Or.inl rfl),
    (C5_configuration_defaults (fun _ => none) (.ok [192, 168, 1, 7])
      ("pb-host", none)).2.2.2.2.1 (Or.inl rfl),
    (C5_configuration_defaults customEnviron (.ok [192, 168, 1, 7]) ("pb-host", none)).1
      "http://eureka.local:8761/eureka" (by decide) (by decide),
    (C5_configuration_defaults customEnviron (.ok [192, 168, 1, 7]) ("pb-host", none)).2.2.1
      "PB-TEST" (by decide) (by decide),
    (C5_configuration_defaults customEnviron (.ok [192, 168, 1, 7])
      ("pb-host", none)).2.2.2.2.2.2.1 9000 (by decide) (by decide)⟩

theorem appendHex_ne_nil (x : Nat) : appendHex x ≠ [] := by
  simp [appendHex]

theorem string4_ne_nil (p4 : IP) : string4 p4 ≠ [] := by
  simp [string4]

theorem string6_ne_nil (ip : IP) : string6 ip ≠ [] := by
  show fields6 ip (zeroRun ip).1 (zeroRun ip).2 (7 + 1) 0 ≠ []
  rw [fields6]
  split_ifs with h8
  · omega
  all_goals simp [appendHex_ne_nil]

theorem ipString_ne_empty (ip : IP) : ipString ip ≠ "" := by
  have hmk : ∀ l : List Char, l ≠ [] → String.mk l ≠ "" := by
    intro l hl h
    exact hl (congrArg String.data h)
  unfold ipString
  split_ifs
  · decide
  · exact hmk _ (by simp)
  · split
    · exact hmk _ (string4_ne_nil _)
    · exact hmk _ (string6_ne_nil _)

/-- C6: the IP of the configuration is never empty; it is the address
`getOutboundIP` returned when the dial succeeded and exactly `127.0.0.1` when
it failed; it is the `IPAddr` of the registration descriptor; and for every
outcome of the dial and of `os.Hostname()`, `main` goes on to bind the hooks and
to call `app.Start()`, logging at most the warning about the IP before. -/
theorem C6_identity_resolution (env : Environ) (dial : Except String IP)
    (host : String × Option String) (start : Option String) :
    (main env dial host start).1.ip ≠ ""
      ∧ (∀ addr, dial = .ok addr →
          (main env dial host start).1.ip = (getOutboundIP dial).1
            ∧ (main env dial host start).1.ip = ipString addr)
      ∧ (∀ err, dial = .error err → (main env dial host start).1.ip = "127.0.0.1")
      ∧ (registrationInstance (main env dial host start).1).IPAddr
          = (main env dial host start).1.ip
      ∧ (main env dial host start).1.hostname = host.1
      ∧ Event.appStart ∈ (main env dial host start).2
      ∧ (main env dial host none).2.getLast? = some Event.appStart := by
  refine ⟨?_, ?_, ?_, rfl, rfl, ?_, ?_⟩
  · cases dial with
    | error err => simp [main, mainConfig, resolveIP, getOutboundIP]
    | ok addr =>
      show ipString addr ≠ ""
      exact ipString_ne_empty addr
  · intro addr h
    subst h
    exact ⟨rfl, rfl⟩
  · intro err h
    subst h
    rfl
  · simp [main]
  · simp [main]

/-- C6 at a successful dial and at a failed one. -/
theorem C6_identity_resolution_witness :
    (main (fun _ => none) (.ok [192, 168, 1, 7]) ("pb-host", none) none).1.ip = "192.168.1.7"
      ∧ (main (fun _ => none) (.error "network is unreachable") ("", some "no hostname")
          none).1.ip = "127.0.0.1" :=
  ⟨((C6_identity_resolution (fun _ => none) (.ok [192, 168, 1, 7]) ("pb-host", none) none).2.1
      [192, 168, 1, 7] rfl).2.trans (by decide),
    (C6_identity_resolution (fun _ => none) (.error "network is unreachable")
      ("", some "no hostname") none).2.2.1 "network is unreachable" rfl⟩

/-- C9: the bootstrap hook passes exactly one descriptor to the registry, the
registration descriptor; the terminate hook and every tick pass exactly one
descriptor each, and that descriptor is the zero `fargo.Instance` with only
`HostName` and `App` set, to the `HostName` and `App` of the registration
descriptor (address, port, VIP address, status and data center are zero). -/
theorem C9_identity_key_stable (cfg : Config) (register deregister next : Option String)
    (w : TickWorld) :
    descriptorsOf (onBootstrap cfg register next).1 = [registrationInstance cfg]
      ∧ descriptorsOf (onTerminate cfg deregister next).1
          = [{ HostName := (registrationInstance cfg).HostName
               Port := 0
               App := (registrationInstance cfg).App
               IPAddr := ""
               VipAddress := ""
               Status := ""
               DataCenterInfo := { Name := "" } }]
      ∧ descriptorsOf (tick cfg w)
          = [{ HostName := (registrationInstance cfg).HostName
               Port := 0
               App := (registrationInstance cfg).App
               IPAddr := ""
               VipAddress := ""
               Status := ""
               DataCenterInfo := { Name := "" } }] := by
  refine ⟨rfl, rfl, ?_⟩
  obtain ⟨rest, hrest, _, hdesc⟩ := tick_cases cfg w
  rw [hrest]
  simp only [descriptorsOf, hdesc]
  rfl

/-! ## The claim on the e-mail handlers -/

theorem buildValidEmails_spec (U : List String) (m : String → Bool) :
    ∃ f, buildValidEmails (U.map some) m = some f ∧ ∀ k, f k = (decide (k ∈ U) || m k) := by
  induction U generalizing m with
  | nil => exact ⟨m, rfl, by simp⟩
  | cons u U ih =>
    obtain ⟨f, hf, hspec⟩ := ih (fun k => if k = u then true else m k)
    refine ⟨f, by simpa [buildValidEmails] using hf, ?_⟩
    intro k
    rw [hspec k]
    by_cases hk : k = u <;> simp [hk]

theorem foldl_split (f : String → Bool) (R a b : List String) :
    R.foldl
        (fun acc email =>
          if f email then (acc.1 ++ [email], acc.2) else (acc.1, acc.2 ++ [email]))
        (a, b)
      = (a ++ R.filter f, b ++ R.filter (fun r => !f r)) := by
  induction R generalizing a b with
  | nil => simp
  | cons r R ih =>
    rw [List.foldl_cons]
    by_cases hr : f r
    · simp [hr, ih]
    · simp [hr, ih]

theorem splitRecipients_eq (f : String → Bool) (U R : List String)
    (hf : ∀ k, f k = decide (k ∈ U)) :
    splitRecipients f R
      = (R.filter (fun r => decide (r ∈ U)), R.filter (fun r => !decide (r ∈ U))) := by
  have hfun : f = fun r => decide (r ∈ U) := funext hf
  unfold splitRecipients
  rw [foldl_split, hfun]
  simp

theorem emailHandlerWith_eq (target : String) (w : EmailWorld) (reqBody : String)
    (emailData : EmailData) (U : List String) (hread : w.readAll = .ok reqBody)
    (hdecode : w.decode reqBody = .ok emailData)
    (hrecords : w.findAllRecords = .ok (U.map some)) :
    (emailData.Recipients.filter (fun r => decide (r ∈ U)) = [] →
        (emailHandlerWith target w).2
            = .json 400 (.noValid "No se encontraron destinatarios válidos"
                (emailData.Recipients.filter (fun r => !decide (r ∈ U))))
          ∧ postsOf (emailHandlerWith target w).1 = [])
      ∧ (emailData.Recipients.filter (fun r => decide (r ∈ U)) ≠ [] →
          postsOf (emailHandlerWith target w).1
              = [(target, emailData.Recipients.filter (fun r => decide (r ∈ U)))]
            ∧ (emailHandlerWith target w).2.status ≠ some 400
            ∧ ∀ reply, w.post = .ok reply →
                (emailHandlerWith target w).2
                  = .json 200 (.sent (emailData.Recipients.filter (fun r => !decide (r ∈ U)))
                      reply)) := by
  obtain ⟨f, hbuild, hf⟩ := buildValidEmails_spec U (fun _ => false)
  have hsplit := splitRecipients_eq f U emailData.Recipients (by simpa using hf)
  have hlogs : ∀ l : List String,
      postsOf (if l.length > 0 then
        [Event.log ("❌ Emails no encontrados: " ++ formatStrings l)] else []) = [] := by
    intro l
    split_ifs <;> rfl
  have hposts : ∀ xs ys : List Event, postsOf xs = [] → postsOf (xs ++ ys) = postsOf ys := by
    intro xs ys h
    induction xs with
    | nil => rfl
    | cons e xs ih =>
      cases e <;> simp_all [postsOf]
  constructor
  · intro hvalid
    simp only [emailHandlerWith, hread, hdecode, hrecords, hbuild, hsplit, hvalid,
      List.length_nil, if_true]
    exact ⟨by trivial, hlogs _⟩
  · intro hvalid
    have hlen : ¬ (emailData.Recipients.filter (fun r => decide (r ∈ U))).length = 0 := by
      simpa [List.length_eq_zero] using hvalid
    cases hpost : w.post with
    | error err =>
      simp only [emailHandlerWith, hread, hdecode, hrecords, hbuild, hsplit, hlen, if_false,
        hpost]
      refine ⟨?_, by simp [Response.status], by intro reply h; cases h⟩
      rw [hposts _ _ (hlogs _)]
      rfl
    | ok respBody =>
      simp only [emailHandlerWith, hread, hdecode, hrecords, hbuild, hsplit, hlen, if_false,
        hpost]
      refine ⟨?_, by simp [Response.status], ?_⟩
      · rw [hposts _ _ (hlogs _)]
        rfl
      · intro reply h
        cases h
        rfl

/-- C10: in both e-mail handlers, for a decoded recipient list and the e-mail
addresses `U` of the `usuarios` records, the handler splits the recipients into
those in `U` and those not in `U`, in the order of the request and with its
duplicates: the two lists together have the length of the request, every
recipient occurs in them as often as in the request and lies in exactly one of
them.  The handler answers 400 exactly when no recipient is in `U`, and then
posts nothing; otherwise it makes exactly one post, to its mail endpoint, and
the recipients of that post are exactly those in `U`. -/
theorem C10_recipients_split (w : EmailWorld) (reqBody : String) (emailData : EmailData)
    (U : List String) (hread : w.readAll = .ok reqBody)
    (hdecode : w.decode reqBody = .ok emailData)
    (hrecords : w.findAllRecords = .ok (U.map some)) :
    (∃ validEmails, buildValidEmails (U.map some) (fun _ => false) = some validEmails
        ∧ splitRecipients validEmails emailData.Recipients
          = (emailData.Recipients.filter (fun r => decide (r ∈ U)),
             emailData.Recipients.filter (fun r => !decide (r ∈ U))))
      ∧ (emailData.Recipients.filter (fun r => decide (r ∈ U))).length
          + (emailData.Recipients.filter (fun r => !decide (r ∈ U))).length
          = emailData.Recipients.length
      ∧ (∀ r, (emailData.Recipients.filter (fun r => decide (r ∈ U))).count r
          + (emailData.Recipients.filter (fun r => !decide (r ∈ U))).count r
          = emailData.Recipients.count r)
      ∧ (∀ r ∈ emailData.Recipients,
          (r ∈ emailData.Recipients.filter (fun r => decide (r ∈ U))
            ∧ r ∉ emailData.Recipients.filter (fun r => !decide (r ∈ U)))
          ∨ (r ∉ emailData.Recipients.filter (fun r => decide (r ∈ U))
            ∧ r ∈ emailData.Recipients.filter (fun r => !decide (r ∈ U))))
      ∧ ∀ h ∈ [(emailHandler, "http://localhost:8017/api/v1/auth/send-email-invitation"),
               (emailsHandler, "http://localhost:8017/api/v1/auth/send-email-html")],
          ((h.1 w).2.status = some 400
              ↔ emailData.Recipients.filter (fun r => decide (r ∈ U)) = [])
            ∧ (emailData.Recipients.filter (fun r => decide (r ∈ U)) = [] →
                (h.1 w).2
                    = .json 400 (.noValid "No se encontraron destinatarios válidos"
                        (emailData.Recipients.filter (fun r => !decide (r ∈ U))))
                  ∧ postsOf (h.1 w).1 = [])
            ∧ (emailData.Recipients.filter (fun r => decide (r ∈ U)) ≠ [] →
                postsOf (h.1 w).1
                  = [(h.2, emailData.Recipients.filter (fun r => decide (r ∈ U)))]) := by
  refine ⟨?_, ?_, ?_, ?_, ?_⟩
  · obtain ⟨f, hbuild, hf⟩ := buildValidEmails_spec U (fun _ => false)
    exact ⟨f, hbuild, splitRecipients_eq f U emailData.Recipients (by simpa using hf)⟩
  · induction emailData.Recipients with
    | nil => rfl
    | cons r R ih =>
      by_cases hr : r ∈ U <;> simp [List.filter_cons, hr] <;> omega
  · intro r
    induction emailData.Recipients with
    | nil => rfl
    | cons x R ih =>
      simp only [List.filter_cons]
      by_cases hx : x ∈ U
      · simp only [hx, decide_True, Bool.not_true, if_true, Bool.false_eq_true, if_false,
          List.count_cons]
        omega
      · simp only [hx, decide_False, Bool.not_false, if_true, Bool.false_eq_true, if_false,
          List.count_cons]
        omega
  · intro r hr
    by_cases hU : r ∈ U
    · left
      simp [List.mem_filter, hr, hU]
    · right
      simp [List.mem_filter, hr, hU]
  · have key : ∀ target,
        ((emailHandlerWith target w).2.status = some 400
            ↔ emailData.Recipients.filter (fun r => decide (r ∈ U)) = [])
          ∧ (emailData.Recipients.filter (fun r => decide (r ∈ U)) = [] →
              (emailHandlerWith target w).2
                  = .json 400 (.noValid "No se encontraron destinatarios válidos"
                      (emailData.Recipients.filter (fun r => !decide (r ∈ U))))
                ∧ postsOf (emailHandlerWith target w).1 = [])
          ∧ (emailData.Recipients.filter (fun r => decide (r ∈ U)) ≠ [] →
              postsOf (emailHandlerWith target w).1
                = [(target, emailData.Recipients.filter (fun r => decide (r ∈ U)))]) := by
      intro target
      have h := emailHandlerWith_eq target w reqBody emailData U hread hdecode hrecords
      refine ⟨⟨?_, ?_⟩, h.1, fun hne => (h.2 hne).1⟩
      · intro hstatus
        by_contra hne
        exact (h.2 hne).2.1 hstatus
      · intro hnil
        rw [(h.1 hnil).1]
        rfl
    intro h hh
    simp only [List.mem_cons, List.mem_singleton, List.not_mem_nil, or_false] at hh
    rcases hh with rfl | rfl
    · exact key _
    · exact key _

/-- C10 at a request with the recipients ana, zoe, ana of whom only ana is a
known user: ana is forwarded twice, zoe is reported. -/
theorem C10_recipients_split_witness :
    sampleEmailWorld.readAll = .ok "body"
      ∧ postsOf (emailHandler sampleEmailWorld).1
          = [("http://localhost:8017/api/v1/auth/send-email-invitation",
              ["ana@x.org", "ana@x.org"])] :=
  ⟨rfl,
    ((C10_recipients_split sampleEmailWorld "body"
        { Recipients := ["ana@x.org", "zoe@x.org", "ana@x.org"], Subject := "s", Body := "b" }
        ["ana@x.org", "leo@x.org"] rfl rfl rfl).2.2.2.2
      (emailHandler, "http://localhost:8017/api/v1/auth/send-email-invitation")
      (List.mem_cons_self _ _)).2.2 (by decide)⟩

end Pocketbase
